import Mathlib

/-!
Shallow embedding of the BlackjackAssistance decision core:
`src/blackjack/game.py` (Card, Game) and `src/blackjack/strategy.py`
(BasicStrategy, CountingStrategy, EnhancedStrategy).

Modelling conventions:
* Python floats are modelled as exact rationals (`ℚ`); Python ints as `Int`/`Nat`.
* Python exceptions are modelled with `Except PyError`; a mutating method is a
  function `Game → Except PyError Unit × Game` returning the status together
  with the (possibly updated) object state, so that "no partial mutation on a
  failed parse" is expressible.
* Python format strings (explanations, advice) are modelled symbolically: an
  inductive type records which message template was produced and the values
  interpolated into it.
* Python dicts with a fixed key set (`cards_per_rank`) are modelled as
  association lists in insertion order.
-/

/-- Python exceptions raised by the core: `ValueError("Invalid card format")`
from `Card.__init__` (the spec calls it `FormatError`), and the
`AttributeError` that accessing `.value` on a `None` dealer up-card raises. -/
inductive PyError
  | valueError
  | attributeError
  deriving DecidableEq, Repr, Inhabited

def suitChars : List Char := ['C', 'D', 'H', 'S']

/-- A character accepted by the rank alternative `[2-9]` or `[JQKA]`. -/
def rankCharOk (r : Char) : Bool :=
  decide (('2' ≤ r ∧ r ≤ '9') ∨ r = 'J' ∨ r = 'Q' ∨ r = 'K' ∨ r = 'A')

/-- A character list consumed completely by `([2-9]|10|[JQKA])([CDHS])`:
either a one-char rank `2`-`9`/`J`/`Q`/`K`/`A` followed by a suit, or `10`
followed by a suit. -/
def matchesRankSuit : List Char → Bool
  | ['1', '0', su] => suitChars.contains su
  | [r, su] => rankCharOk r && suitChars.contains su
  | _ => false

/-- The validation `re.match(r'^([2-9]|10|[JQKA])([CDHS])$', card_str)` of
`Card.__init__` (game.py line 20).  Python's `$` (without `re.MULTILINE`)
matches at the end of the string or just before one newline at the end of the
string, so `re.match` also accepts a well-formed token followed by exactly
one trailing `'\n'` (e.g. `"2C\n"`, `"10H\n"`). -/
def matchesCardFormat (s : String) : Bool :=
  matchesRankSuit s.data ||
    (decide (s.data.getLast? = some '\n') && matchesRankSuit s.data.dropLast)

/-- Spec-side (claim C9 wording): the bit-exact anchored card format
`^([2-9]|10|[JQKA])([CDHS])$` with no allowance for Python's
trailing-newline `$` semantics — the whole token is rank + suit. -/
def matchesCardFormatExact (s : String) : Bool :=
  matchesRankSuit s.data

/-- A playing card (game.py `Card`): rank string, suit char, blackjack value,
ace flag. -/
structure Card where
  rank : String
  suit : Char
  value : Nat
  is_ace : Bool
  deriving DecidableEq, Repr, Inhabited

/-- The `rank_values` dict of `Card.__init__` (game.py lines 32-35). -/
def rank_values (r : String) : Option Nat :=
  if r = "2" then some 2
  else if r = "3" then some 3
  else if r = "4" then some 4
  else if r = "5" then some 5
  else if r = "6" then some 6
  else if r = "7" then some 7
  else if r = "8" then some 8
  else if r = "9" then some 9
  else if r = "10" then some 10
  else if r = "J" then some 10
  else if r = "Q" then some 10
  else if r = "K" then some 10
  else if r = "A" then some 11
  else none

/-- Build the `Card` fields from the extracted rank and suit
(game.py lines 31-38).  The `rank_values` lookup cannot miss for a token that
passed the format check, so the `getD 0` default is unreachable. -/
def mkCard (rank : String) (suit : Char) : Card :=
  { rank := rank
    suit := suit
    value := (rank_values rank).getD 0
    is_ace := decide (rank = "A") }

/-- `Card.__init__` (game.py lines 12-38): validate the token against the
regex, then extract rank (the two-char prefix `10`, else the first char) and
suit.  Raises `ValueError` on a malformed token. -/
def Card.parse (card_str : String) : Except PyError Card :=
  if matchesCardFormat card_str then
    match card_str.data with
    | '1' :: '0' :: su :: _ => .ok (mkCard ("10") su)
    | r :: su :: _ => .ok (mkCard (String.mk [r]) su)
    | _ => .error .valueError
  else .error .valueError

/-- The blackjack game state (game.py `Game`): deck token list (built by
`reset_deck`, never consumed elsewhere), dealt cards, player hand, optional
dealer up-card, Hi-Lo running count. -/
structure Game where
  num_decks : Nat
  deck : List String
  dealt_cards : List Card
  player_hand : List Card
  dealer_upcard : Option Card
  card_count : Int
  deriving DecidableEq, Repr

def deckRankTokens : List String :=
  ["2", "3", "4", "5", "6", "7", "8", "9", "10", "J", "Q", "K", "A"]

def deckSuitTokens : List String := ["C", "D", "H", "S"]

/-- The token list built by `Game.reset_deck` (game.py lines 68-77). -/
def freshDeck (num_decks : Nat) : List String :=
  (List.range num_decks).foldr
    (fun _ acc =>
      deckRankTokens.foldr
        (fun r acc2 => deckSuitTokens.foldr (fun s acc3 => (r ++ s) :: acc3) acc2)
        acc)
    []

/-- `Game.__init__` + `Game.reset_deck` (game.py lines 52-82). -/
def Game.new (num_decks : Nat) : Game :=
  { num_decks := num_decks
    deck := freshDeck num_decks
    dealt_cards := []
    player_hand := []
    dealer_upcard := none
    card_count := 0 }

/-- `Game._update_card_count` (game.py lines 116-126): Hi-Lo update of the
running count for one observed card. -/
def Game._update_card_count (g : Game) (card : Card) : Game :=
  if 2 ≤ card.value ∧ card.value ≤ 6 then { g with card_count := g.card_count + 1 }
  else if 10 ≤ card.value ∨ card.is_ace = true then { g with card_count := g.card_count - 1 }
  else g

/-- `Game.add_dealt_card` (game.py lines 84-93): parse, append to
`dealt_cards`, update the count.  A parse failure escapes before any field of
the game is touched. -/
def Game.add_dealt_card (g : Game) (card_str : String) : Except PyError Unit × Game :=
  match Card.parse card_str with
  | .error e => (.error e, g)
  | .ok card =>
      (.ok (), Game._update_card_count { g with dealt_cards := g.dealt_cards ++ [card] } card)

/-- `Game.add_to_player_hand` (game.py lines 95-104). -/
def Game.add_to_player_hand (g : Game) (card_str : String) : Except PyError Unit × Game :=
  match Card.parse card_str with
  | .error e => (.error e, g)
  | .ok card =>
      (.ok (), Game._update_card_count { g with player_hand := g.player_hand ++ [card] } card)

/-- `Game.set_dealer_upcard` (game.py lines 106-114): overwrites the single
up-card slot, then updates the count; the previous up-card (if any) is not
un-counted. -/
def Game.set_dealer_upcard (g : Game) (card_str : String) : Except PyError Unit × Game :=
  match Card.parse card_str with
  | .error e => (.error e, g)
  | .ok card =>
      (.ok (), Game._update_card_count { g with dealer_upcard := some card } card)

/-- The ace-adjustment loop of `Game.get_player_hand_value`
(game.py lines 144-147): while total > 21 and aces remain, devalue one ace
from 11 to 1. -/
def adjustForAces : Nat → Nat → Nat × Nat
  | total, 0 => (total, 0)
  | total, aces + 1 =>
      if 21 < total then adjustForAces (total - 10) aces
      else (total, aces + 1)

/-- `Game.get_player_hand_value` (game.py lines 128-152): returns
(total, remaining aces counted as 11, is_soft), where `is_soft` is true iff
after adjustment at least one ace remains counted as 11 and the total
is at most 11. -/
def Game.get_player_hand_value (g : Game) : Nat × Nat × Bool :=
  let total := (g.player_hand.map Card.value).sum
  let aces := (g.player_hand.filter (fun c => c.is_ace)).length
  let p := adjustForAces total aces
  (p.1, p.2, decide (0 < p.2 ∧ p.1 ≤ 11))

/-- `Game.can_split` (game.py lines 154-164): exactly two cards of the same
rank string. -/
def Game.can_split (g : Game) : Bool :=
  match g.player_hand with
  | [c1, c2] => decide (c1.rank = c2.rank)
  | _ => false

/-- `Game.can_double_down` (game.py lines 166-174): exactly two cards. -/
def Game.can_double_down (g : Game) : Bool :=
  decide (g.player_hand.length = 2)

/-- `Game.get_running_count` (game.py lines 176-183). -/
def Game.get_running_count (g : Game) : Int :=
  g.card_count

/-- Python's exact `/` on rationals, written with `Rat.divInt` so that the
kernel can evaluate it (proved equal to `(· / ·)` in `pyDiv_eq_div`). -/
def pyDiv (a b : ℚ) : ℚ :=
  Rat.divInt (a.num * (b.den : Int)) ((a.den : Int) * b.num)

/-- `Game.get_true_count` (game.py lines 185-205): running count divided by
decks remaining; 0 when decks remaining is not positive. -/
def Game.get_true_count (g : Game) : ℚ :=
  let cards_per_deck : Int := 52
  let total_cards : Int := g.num_decks * cards_per_deck
  let cards_dealt : Int :=
    (g.dealt_cards.length : Int) + (g.player_hand.length : Int) +
      (if g.dealer_upcard.isSome then 1 else 0)
  let decks_remaining : ℚ := pyDiv ((total_cards - cards_dealt : Int) : ℚ) (cards_per_deck : ℚ)
  if decks_remaining ≤ 0 then 0
  else pyDiv (g.card_count : ℚ) decks_remaining

/-- The initial `cards_per_rank` dict of `Game.get_remaining_cards`
(game.py lines 214-225), in insertion order; J/Q/K are pooled into the
`10` bucket. -/
def initial_cards_per_rank (num_decks : Nat) : List (String × Int) :=
  [("2", 4 * num_decks), ("3", 4 * num_decks), ("4", 4 * num_decks),
   ("5", 4 * num_decks), ("6", 4 * num_decks), ("7", 4 * num_decks),
   ("8", 4 * num_decks), ("9", 4 * num_decks), ("10", 16 * num_decks),
   ("A", 4 * num_decks)]

/-- One iteration of the decrement loop of `Game.get_remaining_cards`
(game.py lines 232-236): J/Q/K decrement the `10` bucket, every other rank
decrements its own bucket. -/
def decrementRank (counts : List (String × Int)) (c : Card) : List (String × Int) :=
  let key := if c.rank = "J" ∨ c.rank = "Q" ∨ c.rank = "K" then "10" else c.rank
  counts.map (fun p => if p.1 = key then (p.1, p.2 - 1) else p)

/-- `Game.get_remaining_cards` (game.py lines 207-238): theoretical per-rank
counts minus every observed card (dealt + player hand + dealer up-card).  The
local `all_cards` list is a fresh concatenation; no field of the game is
modified. -/
def Game.get_remaining_cards (g : Game) : List (String × Int) :=
  let all_cards :=
    g.dealt_cards ++ g.player_hand ++
      (match g.dealer_upcard with
       | some c => [c]
       | none => [])
  all_cards.foldl decrementRank (initial_cards_per_rank g.num_decks)

/-- Python `str.isdigit` for the rank keys in play. -/
def pyStrIsDigit (s : String) : Bool :=
  decide (s.data ≠ []) && s.data.all Char.isDigit

/-- Python `int(...)` on a digit string (it is only ever applied to the
all-digit rank keys), as a base-10 fold over the characters. -/
def pyStrToInt (s : String) : Int :=
  ((s.data.foldl (fun acc c => 10 * acc + (c.toNat - '0'.toNat)) 0 : Nat) : Int)

/-- `Game.calculate_probability_of_bust` (game.py lines 240-266).

The condition on line 260 is `int(rank) if rank.isdigit() else 10 >
bust_threshold`, which Python parses as the conditional expression
`int(rank) if rank.isdigit() else (10 > bust_threshold)`: for a digit rank the
branch condition is the truthiness of `int(rank)` (always true), and only for
the non-digit rank `A` is `10 > bust_threshold` evaluated.  The embedding
reproduces this literally. -/
def Game.calculate_probability_of_bust (g : Game) : ℚ :=
  let hand_value := g.get_player_hand_value.1
  if 21 ≤ hand_value then 1
  else
    let bust_threshold : Int := 21 - (hand_value : Int)
    let remaining_cards := g.get_remaining_cards
    let total_remaining : Int := (remaining_cards.map Prod.snd).sum
    let bust_cards : Int :=
      remaining_cards.foldl
        (fun acc p =>
          if (if pyStrIsDigit p.1 then pyStrToInt p.1 ≠ 0 else 10 > bust_threshold)
          then acc + p.2 else acc)
        0
    if total_remaining = 0 then 0
    else pyDiv (bust_cards : ℚ) (total_remaining : ℚ)

/-- Python `int(q * 100)` (used in the bust-chance advice strings,
strategy.py lines 147-149): truncation toward zero of `100·q`. -/
def pctInt (q : ℚ) : Int :=
  if 0 ≤ q.num then (((100 * q.num).toNat / q.den : Nat) : Int)
  else -(((100 * (-q.num)).toNat / q.den : Nat) : Int)

/-- Symbolic model of the explanation strings produced by the strategy
engines: each constructor is one message template of strategy.py together
with the values interpolated into it. -/
inductive Explanation
  | hitWith (total dealer : Nat)
  | standWith (total dealer : Nat)
  | doubleWith (total dealer : Nat)
  | splitPair (rank : String) (dealer : Nat)
  | emptyText
  | insurance (tc : ℚ)
  | standDeviation (total dealer : Nat) (tc : ℚ)
  | doubleDeviation (total dealer : Nat) (tc : ℚ)
  | splitTensDeviation (dealer : Nat) (tc : ℚ)
  | splitPairDeviation (rank : String) (dealer : Nat) (tc : ℚ)
  | followBasic (tc : ℚ)
  deriving DecidableEq, Repr, Inhabited

/-- Symbolic model of the `subsequent_advice` strings
(strategy.py lines 144-153). -/
inductive Advice
  | noAdvice
  | bustWarning (pct : Int)
  | reevaluate (pct : Int)
  | afterDouble
  | afterSplit
  deriving DecidableEq, Repr, Inhabited

/-- The dict returned by `BasicStrategy.get_recommendation`
(strategy.py lines 155-160). -/
structure Recommendation where
  action : String
  explanation : Explanation
  subsequent_advice : Advice
  bust_probability : ℚ
  deriving DecidableEq, Repr, Inhabited

/-- The dict returned by `CountingStrategy.get_recommendation` and
`EnhancedStrategy.get_recommendation` (strategy.py lines 296-304 and
505-513).  `deviation_note` records whether the deviation marker sentence was
appended to the basic subsequent advice; `counting_info_more_high` records
which phrase the counting narrative picked (`true_count > 0`). -/
structure CountingRecommendation where
  action : String
  explanation : Explanation
  subsequent_advice : Advice
  deviation_note : Bool
  bust_probability : ℚ
  running_count : Int
  true_count : ℚ
  counting_info_more_high : Bool
  deriving DecidableEq, Repr, Inhabited

/-- `BasicStrategy.hard_hands` (strategy.py lines 30-52) as a lookup:
`none` models a missing dict key (outer key `total` in 2-21, inner key
`dealer` in `range(2, 12)`). -/
def hard_hands_lookup (total dealer : Nat) : Option String :=
  if ¬(2 ≤ dealer ∧ dealer ≤ 11) then none
  else if total = 21 ∨ total = 20 ∨ total = 19 ∨ total = 18 ∨ total = 17 then some ("S")
  else if total = 16 then some (if dealer = 11 then "H" else "S")
  else if total = 15 ∨ total = 14 ∨ total = 13 then some (if dealer < 7 then "S" else "H")
  else if total = 12 then some (if 4 ≤ dealer ∧ dealer < 7 then "S" else "H")
  else if total = 11 then some ("D")
  else if total = 10 then some (if dealer < 10 then "D" else "H")
  else if total = 9 then some (if 3 ≤ dealer ∧ dealer < 7 then "D" else "H")
  else if 2 ≤ total ∧ total ≤ 8 then some ("H")
  else none

/-- `BasicStrategy.soft_hands` (strategy.py lines 55-65): outer keys 13-20
only. -/
def soft_hands_lookup (total dealer : Nat) : Option String :=
  if ¬(2 ≤ dealer ∧ dealer ≤ 11) then none
  else if total = 20 ∨ total = 19 then some ("S")
  else if total = 18 then some (if dealer < 9 then "S" else "H")
  else if total = 17 then some (if 3 ≤ dealer ∧ dealer < 7 then "D" else "H")
  else if total = 16 ∨ total = 15 then some (if 4 ≤ dealer ∧ dealer < 7 then "D" else "H")
  else if total = 14 ∨ total = 13 then some (if 5 ≤ dealer ∧ dealer < 7 then "D" else "H")
  else none

/-- `BasicStrategy.pair_hands` (strategy.py lines 68-80), keyed by the shared
rank string. -/
def pair_hands_lookup (rank : String) (dealer : Nat) : Option String :=
  if ¬(2 ≤ dealer ∧ dealer ≤ 11) then none
  else if rank = "A" then some ("P")
  else if rank = "10" then some ("S")
  else if rank = "9" then
    some (if dealer = 2 ∨ dealer = 3 ∨ dealer = 4 ∨ dealer = 5 ∨ dealer = 6 ∨
             dealer = 8 ∨ dealer = 9 then "P" else "S")
  else if rank = "8" then some ("P")
  else if rank = "7" then some (if dealer < 8 then "P" else "H")
  else if rank = "6" then some (if dealer < 7 then "P" else "H")
  else if rank = "5" then some (if dealer < 10 then "D" else "H")
  else if rank = "4" then some (if dealer = 5 ∨ dealer = 6 then "P" else "H")
  else if rank = "3" then some (if dealer < 8 then "P" else "H")
  else if rank = "2" then some (if dealer < 8 then "P" else "H")
  else none

/-- The action-resolution chain of `BasicStrategy.get_recommendation`
(strategy.py lines 104-128): pairs first, else the soft table, else the hard
table, defaulting to `"H"`; a `"D"` resolved through the soft or hard table is
downgraded to `"H"` when doubling is unavailable. -/
def basic_resolve (g : Game) (total : Nat) (is_soft : Bool) (dealer_value : Nat) : String :=
  let can_split := g.can_split
  let can_double := g.can_double_down
  if can_split = true ∧ g.player_hand.length = 2 then
    match pair_hands_lookup (g.player_hand.getD 0 default).rank dealer_value with
    | some a => a
    | none => "H"
  else if is_soft = true ∧ (soft_hands_lookup total dealer_value).isSome then
    let a := (soft_hands_lookup total dealer_value).getD ("H")
    if a = "D" ∧ can_double = false then "H" else a
  else
    match hard_hands_lookup total dealer_value with
    | some a => if a = "D" ∧ can_double = false then "H" else a
    | none => "H"

/-- `BasicStrategy.get_recommendation` (strategy.py lines 82-160).  Accessing
`game.dealer_upcard.value` with no up-card set raises `AttributeError`
(there is no precondition check in the code); with an up-card set the method
always returns a recommendation dict. -/
def BasicStrategy.get_recommendation (g : Game) : Except PyError Recommendation :=
  let hv := g.get_player_hand_value
  let total := hv.1
  let is_soft := hv.2.2
  match g.dealer_upcard with
  | none => .error .attributeError
  | some dealer =>
      let dealer_value := dealer.value
      let action := basic_resolve g total is_soft dealer_value
      let explanation : Explanation :=
        if action = "H" then .hitWith total dealer_value
        else if action = "S" then .standWith total dealer_value
        else if action = "D" then .doubleWith total dealer_value
        else if action = "P" then .splitPair (g.player_hand.getD 0 default).rank dealer_value
        else .emptyText
      let bust_probability := g.calculate_probability_of_bust
      let subsequent_advice : Advice :=
        if action = "H" then
          if bust_probability > Rat.divInt 1 2 then .bustWarning (pctInt bust_probability)
          else .reevaluate (pctInt bust_probability)
        else if action = "D" then .afterDouble
        else if action = "P" then .afterSplit
        else .noAdvice
      .ok { action := action
            explanation := explanation
            subsequent_advice := subsequent_advice
            bust_probability := bust_probability }

/-- `game.dealer_upcard.rank` under the assumption that the up-card is set
(the strategy engines only read it after the up-card `None` access would
already have raised). -/
def dealerRankD (g : Game) : String :=
  (g.dealer_upcard.map Card.rank).getD ("")

/-- `game.dealer_upcard.value` under the assumption that the up-card is set. -/
def dealerValueD (g : Game) : Nat :=
  (g.dealer_upcard.map Card.value).getD 0

/-- Membership of a rank string in the ten-valued group `["10","J","Q","K"]`
(strategy.py line 266). -/
def isTenRank (r : String) : Bool :=
  decide (r = "10" ∨ r = "J" ∨ r = "Q" ∨ r = "K")

/-- The deviation if/elif chain of `CountingStrategy.get_recommendation`
(strategy.py lines 214-274), with the thresholds inlined from
`CountingStrategy.true_count_thresholds` (lines 174-185): insurance 3.0,
16-vs-10 0.0, 15-vs-10 4.0, 10-vs-ace 4.0, 12-vs-3 2.0, 12-vs-2 3.0,
11-vs-ace 1.0, 9-vs-2 1.0, 10-10-vs-5/6 -4.0.  Returns
(action, explanation, deviation_made), starting from the basic-strategy
action and explanation. -/
def countingDevChain (g : Game) (basic_action : String) (basic_explanation : Explanation) :
    String × Explanation × Bool :=
  if dealerRankD g = "A" ∧ 3 ≤ g.get_true_count then
    (basic_action, .insurance g.get_true_count, true)
  else if g.get_player_hand_value.1 = 16 ∧ dealerValueD g = 10 ∧
      g.get_player_hand_value.2.2 = false ∧ 0 ≤ g.get_true_count then
    ("S", .standDeviation 16 10 g.get_true_count, true)
  else if g.get_player_hand_value.1 = 15 ∧ dealerValueD g = 10 ∧
      g.get_player_hand_value.2.2 = false ∧ 4 ≤ g.get_true_count then
    ("S", .standDeviation 15 10 g.get_true_count, true)
  else if g.get_player_hand_value.1 = 10 ∧ dealerValueD g = 11 ∧
      g.can_double_down = true ∧ 4 ≤ g.get_true_count then
    ("D", .doubleDeviation 10 11 g.get_true_count, true)
  else if g.get_player_hand_value.1 = 12 ∧ dealerValueD g = 3 ∧
      g.get_player_hand_value.2.2 = false ∧ 2 ≤ g.get_true_count then
    ("S", .standDeviation 12 3 g.get_true_count, true)
  else if g.get_player_hand_value.1 = 12 ∧ dealerValueD g = 2 ∧
      g.get_player_hand_value.2.2 = false ∧ 3 ≤ g.get_true_count then
    ("S", .standDeviation 12 2 g.get_true_count, true)
  else if g.get_player_hand_value.1 = 11 ∧ dealerValueD g = 11 ∧
      g.can_double_down = true ∧ 1 ≤ g.get_true_count then
    ("D", .doubleDeviation 11 11 g.get_true_count, true)
  else if g.get_player_hand_value.1 = 9 ∧ dealerValueD g = 2 ∧
      g.can_double_down = true ∧ 1 ≤ g.get_true_count then
    ("D", .doubleDeviation 9 2 g.get_true_count, true)
  else if g.can_split = true ∧ g.player_hand.length = 2 ∧
          isTenRank (g.player_hand.getD 0 default).rank = true ∧
          isTenRank (g.player_hand.getD 1 default).rank = true then
    if dealerValueD g = 5 ∧ g.get_true_count ≤ -4 then
      ("P", .splitTensDeviation 5 g.get_true_count, true)
    else if dealerValueD g = 6 ∧ g.get_true_count ≤ -4 then
      ("P", .splitTensDeviation 6 g.get_true_count, true)
    else (basic_action, basic_explanation, false)
  else (basic_action, basic_explanation, false)

/-- `CountingStrategy.get_recommendation` (strategy.py lines 187-304): basic
strategy first, then the first matching deviation of the chain; when no
deviation fires the explanation is replaced with the follow-basic-strategy
message. -/
def CountingStrategy.get_recommendation (g : Game) : Except PyError CountingRecommendation := do
  let basic_rec ← BasicStrategy.get_recommendation g
  match g.dealer_upcard with
  | none => .error .attributeError
  | some _ =>
      let true_count := g.get_true_count
      let res := countingDevChain g basic_rec.action basic_rec.explanation
      let deviation_made := res.2.2
      let explanation := if deviation_made = false then .followBasic true_count else res.2.1
      let bust_probability := g.calculate_probability_of_bust
      let running_count := g.get_running_count
      .ok { action := res.1
            explanation := explanation
            subsequent_advice := basic_rec.subsequent_advice
            deviation_note := deviation_made
            bust_probability := bust_probability
            running_count := running_count
            true_count := true_count
            counting_info_more_high := decide (true_count > 0) }

/-- The deviation if/elif chain of `EnhancedStrategy.get_recommendation`
(strategy.py lines 401-487), with the thresholds inlined from
`EnhancedStrategy.true_count_thresholds` (lines 318-365): insurance 2.5,
16-vs-10 0.0, 15-vs-10 3.0, 14-vs-10 4.0, 13-vs-10 5.0, 12-vs-10 5.0,
soft-18-vs-9 0.5, soft-17-vs-2 1.0, soft-16-vs-4 0.5, 11-vs-ace 0.5,
10-vs-ace 1.0, 10-vs-10 1.0, 10-10-vs-5/6 -3.0, 8-8-vs-10 1.0.  As in the
source, an entered `is_soft`/double/pair branch whose inner conditions all
fail produces no deviation. -/
def enhancedDevChain (g : Game) (basic_action : String) (basic_explanation : Explanation) :
    String × Explanation × Bool :=
  if dealerRankD g = "A" ∧ Rat.divInt 5 2 ≤ g.get_true_count then
    (basic_action, .insurance g.get_true_count, true)
  else if g.get_player_hand_value.1 = 16 ∧ dealerValueD g = 10 ∧
      g.get_player_hand_value.2.2 = false ∧ 0 ≤ g.get_true_count then
    ("S", .standDeviation 16 10 g.get_true_count, true)
  else if g.get_player_hand_value.1 = 15 ∧ dealerValueD g = 10 ∧
      g.get_player_hand_value.2.2 = false ∧ 3 ≤ g.get_true_count then
    ("S", .standDeviation 15 10 g.get_true_count, true)
  else if g.get_player_hand_value.1 = 14 ∧ dealerValueD g = 10 ∧
      g.get_player_hand_value.2.2 = false ∧ 4 ≤ g.get_true_count then
    ("S", .standDeviation 14 10 g.get_true_count, true)
  else if g.get_player_hand_value.1 = 13 ∧ dealerValueD g = 10 ∧
      g.get_player_hand_value.2.2 = false ∧ 5 ≤ g.get_true_count then
    ("S", .standDeviation 13 10 g.get_true_count, true)
  else if g.get_player_hand_value.1 = 12 ∧ dealerValueD g = 10 ∧
      g.get_player_hand_value.2.2 = false ∧ 5 ≤ g.get_true_count then
    ("S", .standDeviation 12 10 g.get_true_count, true)
  else if g.get_player_hand_value.2.2 = true then
    if g.get_player_hand_value.1 = 18 ∧ dealerValueD g = 9 ∧
        Rat.divInt 1 2 ≤ g.get_true_count then
      ("S", .standDeviation 18 9 g.get_true_count, true)
    else if g.get_player_hand_value.1 = 17 ∧ dealerValueD g = 2 ∧
        1 ≤ g.get_true_count then
      ("S", .standDeviation 17 2 g.get_true_count, true)
    else if g.get_player_hand_value.1 = 16 ∧ dealerValueD g = 4 ∧
        g.can_double_down = true ∧ Rat.divInt 1 2 ≤ g.get_true_count then
      ("D", .doubleDeviation 16 4 g.get_true_count, true)
    else (basic_action, basic_explanation, false)
  else if g.can_double_down = true then
    if g.get_player_hand_value.1 = 11 ∧ dealerValueD g = 11 ∧
        Rat.divInt 1 2 ≤ g.get_true_count then
      ("D", .doubleDeviation 11 11 g.get_true_count, true)
    else if g.get_player_hand_value.1 = 10 ∧ dealerValueD g = 11 ∧
        1 ≤ g.get_true_count then
      ("D", .doubleDeviation 10 11 g.get_true_count, true)
    else if g.get_player_hand_value.1 = 10 ∧ dealerValueD g = 10 ∧
        1 ≤ g.get_true_count then
      ("D", .doubleDeviation 10 10 g.get_true_count, true)
    else (basic_action, basic_explanation, false)
  else if g.can_split = true ∧ g.player_hand.length = 2 then
    if isTenRank (g.player_hand.getD 0 default).rank = true ∧
        isTenRank (g.player_hand.getD 1 default).rank = true then
      if dealerValueD g = 5 ∧ g.get_true_count ≤ -3 then
        ("P", .splitTensDeviation 5 g.get_true_count, true)
      else if dealerValueD g = 6 ∧ g.get_true_count ≤ -3 then
        ("P", .splitTensDeviation 6 g.get_true_count, true)
      else (basic_action, basic_explanation, false)
    else if (g.player_hand.getD 0 default).rank = "8" ∧
        (g.player_hand.getD 1 default).rank = "8" ∧ dealerValueD g = 10 ∧
        1 ≤ g.get_true_count then
      ("P", .splitPairDeviation ("8") 10 g.get_true_count, true)
    else (basic_action, basic_explanation, false)
  else (basic_action, basic_explanation, false)

/-- `EnhancedStrategy.get_recommendation` (strategy.py lines 374-513).
Unlike `CountingStrategy`, the explanation is not replaced when no deviation
fires. -/
def EnhancedStrategy.get_recommendation (g : Game) : Except PyError CountingRecommendation := do
  let basic_rec ← BasicStrategy.get_recommendation g
  match g.dealer_upcard with
  | none => .error .attributeError
  | some _ =>
      let true_count := g.get_true_count
      let res := enhancedDevChain g basic_rec.action basic_rec.explanation
      let deviation_made := res.2.2
      let bust_probability := g.calculate_probability_of_bust
      let running_count := g.get_running_count
      .ok { action := res.1
            explanation := res.2.1
            subsequent_advice := basic_rec.subsequent_advice
            deviation_note := deviation_made
            bust_probability := bust_probability
            running_count := running_count
            true_count := true_count
            counting_info_more_high := decide (true_count > 0) }

/-- Spec-side (claim C1 wording): the numeric value of a remaining-inventory
rank key — its digits, or 10 for a non-digit rank. -/
def rankNumericValue (rank : String) : Int :=
  if pyStrIsDigit rank then pyStrToInt rank else 10

/-- Spec-side (claim C1 wording): bust probability = (sum of remaining counts
over ranks whose numeric value strictly exceeds 21 − total) / (total remaining
cards), 0 with no cards remaining, and 1 whenever the total is at least 21.
`pyDiv` is exact rational division (`pyDiv_eq_div`). -/
def bustProbabilitySpec (g : Game) : ℚ :=
  let total := g.get_player_hand_value.1
  if 21 ≤ total then 1
  else
    let bustThreshold : Int := 21 - (total : Int)
    let remaining := g.get_remaining_cards
    let totalRemaining : Int := (remaining.map Prod.snd).sum
    let bustCards : Int :=
      ((remaining.filter (fun p => bustThreshold < rankNumericValue p.1)).map Prod.snd).sum
    if totalRemaining = 0 then 0
    else pyDiv (bustCards : ℚ) (totalRemaining : ℚ)

/-- Spec-side (claim C6 wording): trueCount = runningCount ÷ decksRemaining
with decksRemaining = (deckCount × 52 − cardsDealtSoFar) / 52 and
cardsDealtSoFar = |observedCards| + |playerHand| + (1 if the dealer up-card is
set); 0 whenever decksRemaining ≤ 0. -/
def trueCountSpec (g : Game) : ℚ :=
  let cardsDealtSoFar : Int :=
    (g.dealt_cards.length : Int) + (g.player_hand.length : Int) +
      (if g.dealer_upcard.isSome then 1 else 0)
  let decksRemaining : ℚ := (((g.num_decks : Int) * 52 - cardsDealtSoFar : Int) : ℚ) / 52
  if decksRemaining ≤ 0 then 0
  else (g.card_count : ℚ) / decksRemaining

/-- Spec-side (claim C3 wording): the Hi-Lo contribution of one card — +1 for
value 2-6, −1 for value ≥ 10 or an ace, 0 otherwise. -/
def hiLo (c : Card) : Int :=
  if 2 ≤ c.value ∧ c.value ≤ 6 then 1
  else if 10 ≤ c.value ∨ c.is_ace = true then -1
  else 0

/-- The card a valid token parses to (default card on a malformed token). -/
def parseD (tok : String) : Card :=
  (Card.parse tok).toOption.getD default

/-- The Hi-Lo contribution of the card a token parses to (0 on a malformed
token, which never adds a card). -/
def hiLoTok (tok : String) : Int :=
  match Card.parse tok with
  | .ok c => hiLo c
  | .error _ => 0

/-- One mutating call on a `Game`: `add_dealt_card`, `add_to_player_hand` or
`set_dealer_upcard`, with its card token. -/
inductive GameOp
  | dealt (tok : String)
  | toPlayer (tok : String)
  | dealerUp (tok : String)
  deriving DecidableEq, Repr

def GameOp.token : GameOp → String
  | .dealt t => t
  | .toPlayer t => t
  | .dealerUp t => t

/-- Execute one mutating call, keeping the (possibly updated) state and
discarding the status, as a caller that ignores exceptions would observe
the object afterwards. -/
def applyOp (g : Game) : GameOp → Game
  | .dealt t => (g.add_dealt_card t).2
  | .toPlayer t => (g.add_to_player_hand t).2
  | .dealerUp t => (g.set_dealer_upcard t).2

/-- Execute a sequence of mutating calls in order. -/
def applyOps (g : Game) (ops : List GameOp) : Game :=
  ops.foldl applyOp g

/-- A card that `Card.__init__` can actually produce: its rank string is a key
of the rank/value tables (this is exactly what `Game.get_remaining_cards`
needs to avoid a Python `KeyError`). -/
def Card.wf (c : Card) : Bool :=
  (rank_values c.rank).isSome

/-- Every card held by the game state is one `Card.__init__` can produce. -/
def Game.wf (g : Game) : Bool :=
  g.dealt_cards.all Card.wf && g.player_hand.all Card.wf &&
    (g.dealer_upcard.map Card.wf).getD true

/-- One deviation-rule record (spec §9: predicate, override action, override
explanation), the action override taking the basic-strategy action as input
so the insurance rule can leave it unchanged. -/
structure DevRule where
  guard : Game → Bool
  action : Game → String → String
  expl : Game → Explanation

/-- Spec-side (claim C8 wording): top-to-bottom, first-match-wins evaluation
of an ordered deviation-rule list, starting from the basic action and
explanation; the returned flag records whether some rule fired. -/
def firstMatch : List DevRule → Game → String → Explanation → String × Explanation × Bool
  | [], _, a, e => (a, e, false)
  | r :: rs, g, a, e =>
      if r.guard g = true then (r.action g a, r.expl g, true)
      else firstMatch rs g a e

/-- The ordered deviation-rule list of `CountingStrategy` in source order:
insurance → 16-vs-10 → 15-vs-10 → 10-vs-Ace → 12-vs-3 → 12-vs-2 →
11-vs-Ace → 9-vs-2 → pair-10-vs-5/6. -/
def countingRules : List DevRule :=
  [⟨fun g => decide (dealerRankD g = "A" ∧ 3 ≤ g.get_true_count),
    fun _ a => a,
    fun g => .insurance g.get_true_count⟩,
   ⟨fun g => decide (g.get_player_hand_value.1 = 16 ∧ dealerValueD g = 10 ∧
       g.get_player_hand_value.2.2 = false ∧ 0 ≤ g.get_true_count),
    fun _ _ => "S",
    fun g => .standDeviation 16 10 g.get_true_count⟩,
   ⟨fun g => decide (g.get_player_hand_value.1 = 15 ∧ dealerValueD g = 10 ∧
       g.get_player_hand_value.2.2 = false ∧ 4 ≤ g.get_true_count),
    fun _ _ => "S",
    fun g => .standDeviation 15 10 g.get_true_count⟩,
   ⟨fun g => decide (g.get_player_hand_value.1 = 10 ∧ dealerValueD g = 11 ∧
       g.can_double_down = true ∧ 4 ≤ g.get_true_count),
    fun _ _ => "D",
    fun g => .doubleDeviation 10 11 g.get_true_count⟩,
   ⟨fun g => decide (g.get_player_hand_value.1 = 12 ∧ dealerValueD g = 3 ∧
       g.get_player_hand_value.2.2 = false ∧ 2 ≤ g.get_true_count),
    fun _ _ => "S",
    fun g => .standDeviation 12 3 g.get_true_count⟩,
   ⟨fun g => decide (g.get_player_hand_value.1 = 12 ∧ dealerValueD g = 2 ∧
       g.get_player_hand_value.2.2 = false ∧ 3 ≤ g.get_true_count),
    fun _ _ => "S",
    fun g => .standDeviation 12 2 g.get_true_count⟩,
   ⟨fun g => decide (g.get_player_hand_value.1 = 11 ∧ dealerValueD g = 11 ∧
       g.can_double_down = true ∧ 1 ≤ g.get_true_count),
    fun _ _ => "D",
    fun g => .doubleDeviation 11 11 g.get_true_count⟩,
   ⟨fun g => decide (g.get_player_hand_value.1 = 9 ∧ dealerValueD g = 2 ∧
       g.can_double_down = true ∧ 1 ≤ g.get_true_count),
    fun _ _ => "D",
    fun g => .doubleDeviation 9 2 g.get_true_count⟩,
   ⟨fun g => decide ((g.can_split = true ∧ g.player_hand.length = 2 ∧
       isTenRank (g.player_hand.getD 0 default).rank = true ∧
       isTenRank (g.player_hand.getD 1 default).rank = true) ∧
       ((dealerValueD g = 5 ∧ g.get_true_count ≤ -4) ∨
        (dealerValueD g = 6 ∧ g.get_true_count ≤ -4))),
    fun _ _ => "P",
    fun g => if dealerValueD g = 5 ∧ g.get_true_count ≤ -4 then
               .splitTensDeviation 5 g.get_true_count
             else .splitTensDeviation 6 g.get_true_count⟩]

/-- State-passing translation of `Game.get_remaining_cards`
(game.py lines 207-238): `all_cards = self.dealt_cards + self.player_hand`
builds a fresh list and the later `append` extends that local list only; no
field of `self` is ever assigned, so the state comes back unchanged. -/
def Game.get_remaining_cards_run (g : Game) : List (String × Int) × Game :=
  let all_cards := g.dealt_cards ++ g.player_hand
  let all_cards :=
    match g.dealer_upcard with
    | some c => all_cards ++ [c]
    | none => all_cards
  (all_cards.foldl decrementRank (initial_cards_per_rank g.num_decks), g)

/-- State-passing translation of `Game.calculate_probability_of_bust`
(game.py lines 240-266), threading the state through its
`get_remaining_cards` call. -/
def Game.calculate_probability_of_bust_run (g : Game) : ℚ × Game :=
  let hand_value := g.get_player_hand_value.1
  if 21 ≤ hand_value then (1, g)
  else
    let bust_threshold : Int := 21 - (hand_value : Int)
    let rc := g.get_remaining_cards_run
    let remaining_cards := rc.1
    let g1 := rc.2
    let total_remaining : Int := (remaining_cards.map Prod.snd).sum
    let bust_cards : Int :=
      remaining_cards.foldl
        (fun acc p =>
          if (if pyStrIsDigit p.1 then pyStrToInt p.1 ≠ 0 else 10 > bust_threshold)
          then acc + p.2 else acc)
        0
    if total_remaining = 0 then (0, g1)
    else (pyDiv (bust_cards : ℚ) (total_remaining : ℚ), g1)

/-- State-passing translation of `BasicStrategy.get_recommendation`
(strategy.py lines 82-160), threading the state through every sub-call on the
game object. -/
def BasicStrategy.get_recommendation_run (g : Game) :
    Except PyError Recommendation × Game :=
  let hv := g.get_player_hand_value
  match g.dealer_upcard with
  | none => (.error .attributeError, g)
  | some dealer =>
      let action := basic_resolve g hv.1 hv.2.2 dealer.value
      let explanation : Explanation :=
        if action = "H" then .hitWith hv.1 dealer.value
        else if action = "S" then .standWith hv.1 dealer.value
        else if action = "D" then .doubleWith hv.1 dealer.value
        else if action = "P" then .splitPair (g.player_hand.getD 0 default).rank dealer.value
        else .emptyText
      let bp := g.calculate_probability_of_bust_run
      let bust_probability := bp.1
      let g1 := bp.2
      let subsequent_advice : Advice :=
        if action = "H" then
          if bust_probability > Rat.divInt 1 2 then .bustWarning (pctInt bust_probability)
          else .reevaluate (pctInt bust_probability)
        else if action = "D" then .afterDouble
        else if action = "P" then .afterSplit
        else .noAdvice
      (.ok { action := action
             explanation := explanation
             subsequent_advice := subsequent_advice
             bust_probability := bust_probability }, g1)

/-- Recognizer for the three soft-hand deviation explanations of
`EnhancedStrategy` (soft 18 vs 9, soft 17 vs 2, soft 16 vs 4): claim C2 says
none of them can ever be produced. -/
def isSoftDevExpl : Explanation → Bool
  | .standDeviation 18 9 _ => true
  | .standDeviation 17 2 _ => true
  | .doubleDeviation 16 4 _ => true
  | _ => false

/-- Concrete game for witnesses: one deck, player hand 10♣ 6♦ (hard 16),
dealer up-card 10♠. -/
def c5Game : Game :=
  ((((Game.new 1).add_to_player_hand ("10C")).2.add_to_player_hand ("6D")).2.set_dealer_upcard
    ("10S")).2

/-- Concrete game for witnesses: one deck, player hand A♠ (a soft total of
11, the only shape the literal `is_soft` rule ever flags), dealer 9♥. -/
def c2SoftGame : Game :=
  (((Game.new 1).add_to_player_hand ("AS")).2.set_dealer_upcard ("9H")).2

/-- The enhanced-strategy recommendation on `c2SoftGame`. -/
def c2EnhRec : CountingRecommendation :=
  (EnhancedStrategy.get_recommendation c2SoftGame).toOption.getD default

/-- Concrete game for witnesses: one deck, five low cards dealt (2♣ 3♣ 4♣ 5♣
6♣), player hand 10♣ 6♦, dealer up-card A♠; running count +4, true count
52/11 ≈ 4.7 ≥ 3, so the insurance deviation of the counting engine fires. -/
def c8Game : Game :=
  ((((((((Game.new 1).add_dealt_card ("2C")).2.add_dealt_card ("3C")).2.add_dealt_card
    ("4C")).2.add_dealt_card ("5C")).2.add_dealt_card ("6C")).2.add_to_player_hand
    ("10C")).2.add_to_player_hand ("6D")).2.set_dealer_upcard ("AS") |>.2

/-- The basic-strategy recommendation on `c8Game`. -/
def c8BasicRec : Recommendation :=
  (BasicStrategy.get_recommendation c8Game).toOption.getD default

/-- The counting-strategy recommendation on `c8Game`. -/
def c8CountingRec : CountingRecommendation :=
  (CountingStrategy.get_recommendation c8Game).toOption.getD default

/-! ## Supporting lemmas -/

theorem pyDiv_eq_div (a b : ℚ) : pyDiv a b = a / b := by
  rcases eq_or_ne b 0 with hb | hb
  · subst hb
    simp [pyDiv]
  · have hbn : (b.num : ℚ) ≠ 0 := by
      exact_mod_cast Rat.num_ne_zero.mpr hb
    have had : ((a.den : Nat) : ℚ) ≠ 0 := by
      exact_mod_cast a.den_nz
    rw [pyDiv, Rat.divInt_eq_div]
    push_cast
    rw [div_eq_div_iff (mul_ne_zero had hbn) hb]
    have ha' : (a.num : ℚ) = a * ((a.den : Nat) : ℚ) :=
      ((eq_div_iff had).mp (Rat.num_div_den a).symm).symm
    have hb' : (b.num : ℚ) = b * ((b.den : Nat) : ℚ) :=
      ((eq_div_iff (by exact_mod_cast b.den_nz)).mp (Rat.num_div_den b).symm).symm
    rw [ha', hb']
    ring

theorem update_card_count_spec (g : Game) (c : Card) :
    Game._update_card_count g c = { g with card_count := g.card_count + hiLo c } := by
  unfold Game._update_card_count hiLo
  split_ifs <;> simp [sub_eq_add_neg]

theorem parse_isOk_of_format (t : String) (h : matchesCardFormat t = true) :
    (Card.parse t).isOk = true := by
  unfold Card.parse
  rw [if_pos h]
  unfold matchesCardFormat matchesRankSuit at h
  rcases ht : t.data with _ | ⟨r, _ | ⟨su, l⟩⟩
  · rw [ht] at h; simp at h
  · rw [ht] at h; simp at h
  · split
    · rfl
    · rfl
    · rename_i hne1 hne2
      exact (hne2 r su l rfl).elim

theorem parse_ok_of_format (t : String) (h : matchesCardFormat t = true) :
    Card.parse t = .ok (parseD t) := by
  have hk := parse_isOk_of_format t h
  unfold parseD
  cases hp : Card.parse t
  · rw [hp] at hk; simp [Except.isOk, Except.toBool] at hk
  · rfl

theorem parse_error_of_not_format (t : String) (h : matchesCardFormat t = false) :
    Card.parse t = .error .valueError := by
  unfold Card.parse
  rw [h]
  simp

theorem soft_total_le (g : Game) (h : g.get_player_hand_value.2.2 = true) :
    g.get_player_hand_value.1 ≤ 11 := by
  unfold Game.get_player_hand_value at *
  simp only [decide_eq_true_eq] at h
  exact h.2

theorem applyOp_card_count (g : Game) (op : GameOp) :
    (applyOp g op).card_count = g.card_count + hiLoTok op.token := by
  cases op <;>
    · rename_i t
      cases hp : Card.parse t <;>
        simp [applyOp, GameOp.token, Game.add_dealt_card, Game.add_to_player_hand,
              Game.set_dealer_upcard, hiLoTok, hp, update_card_count_spec]

theorem applyOps_card_count (ops : List GameOp) : ∀ g : Game,
    (applyOps g ops).card_count = g.card_count + (ops.map (fun op => hiLoTok op.token)).sum := by
  induction ops with
  | nil => intro g; simp [applyOps]
  | cons op rest ih =>
      intro g
      have h1 : applyOps g (op :: rest) = applyOps (applyOp g op) rest := rfl
      rw [h1, ih (applyOp g op), applyOp_card_count]
      simp [add_assoc]

theorem basic_error_of_none (g : Game) (hd : g.dealer_upcard = none) :
    BasicStrategy.get_recommendation g = .error .attributeError := by
  unfold BasicStrategy.get_recommendation
  rw [hd]

theorem basic_isOk_of_some (g : Game) (d : Card) (hd : g.dealer_upcard = some d) :
    (BasicStrategy.get_recommendation g).isOk = true := by
  unfold BasicStrategy.get_recommendation
  rw [hd]
  rfl

theorem basicRecOf_ok (g : Game) (d : Card) (hd : g.dealer_upcard = some d) :
    BasicStrategy.get_recommendation g =
      .ok ((BasicStrategy.get_recommendation g).toOption.getD default) := by
  have hk := basic_isOk_of_some g d hd
  cases hp : BasicStrategy.get_recommendation g
  · rw [hp] at hk; simp [Except.isOk, Except.toBool] at hk
  · rfl

theorem counting_error_of_none (g : Game) (hd : g.dealer_upcard = none) :
    CountingStrategy.get_recommendation g = .error .attributeError := by
  unfold CountingStrategy.get_recommendation
  rw [basic_error_of_none g hd]
  rfl

theorem counting_isOk_of_some (g : Game) (d : Card) (hd : g.dealer_upcard = some d) :
    (CountingStrategy.get_recommendation g).isOk = true := by
  unfold CountingStrategy.get_recommendation
  rw [basicRecOf_ok g d hd, hd]
  rfl

theorem enhanced_error_of_none (g : Game) (hd : g.dealer_upcard = none) :
    EnhancedStrategy.get_recommendation g = .error .attributeError := by
  unfold EnhancedStrategy.get_recommendation
  rw [basic_error_of_none g hd]
  rfl

theorem enhanced_isOk_of_some (g : Game) (d : Card) (hd : g.dealer_upcard = some d) :
    (EnhancedStrategy.get_recommendation g).isOk = true := by
  unfold EnhancedStrategy.get_recommendation
  rw [basicRecOf_ok g d hd, hd]
  rfl

/-! ## Claim theorems -/

/-- Claim C1 (code bug, evaluated at the failing input): on a fresh one-deck
game the player total is 0 < 21 and no rank value exceeds the bust threshold
21, so the claimed formula gives 0; but `calculate_probability_of_bust`
returns 12/13 (= 48/52), because the condition on game.py line 260 parses as
`int(rank) if rank.isdigit() else (10 > bust_threshold)` and therefore counts
every digit rank as a bust card. -/
theorem c1_bust_probability_precedence_bug :
    (Game.new 1).get_player_hand_value.1 < 21 ∧
    (Game.new 1).calculate_probability_of_bust = Rat.divInt 12 13 ∧
    bustProbabilitySpec (Game.new 1) = 0 ∧
    (Game.new 1).calculate_probability_of_bust ≠ bustProbabilitySpec (Game.new 1) := by
  decide

/-- Claim C3: after any sequence of `add_dealt_card` / `add_to_player_hand` /
`set_dealer_upcard` calls with valid tokens on a fresh game, the running
count equals the sum, in addition order, of the Hi-Lo contributions of the
added cards, regardless of which collection each card went to. -/
theorem c3_running_count_hiLo (n : Nat) (ops : List GameOp)
    (hv : ∀ op ∈ ops, matchesCardFormat op.token = true) :
    (applyOps (Game.new n) ops).get_running_count =
      (ops.map (fun op => hiLoTok op.token)).sum := by
  have h := applyOps_card_count ops (Game.new n)
  have hz : (Game.new n).card_count = 0 := rfl
  rw [hz, zero_add] at h
  exact h

/-- Witness for C3 at a concrete valid sequence: a dealt 2♣ (+1), a player
K♥ (−1) and a dealer A♠ (−1) leave the running count at −1. -/
theorem c3_running_count_hiLo_witness :
    (applyOps (Game.new 1)
      [GameOp.dealt ("2C"), GameOp.toPlayer ("KH"), GameOp.dealerUp ("AS")]).get_running_count
      = -1 := by
  have h := c3_running_count_hiLo 1
    [GameOp.dealt ("2C"), GameOp.toPlayer ("KH"), GameOp.dealerUp ("AS")] (by decide)
  rw [h]
  decide

/-- Counterexample to claim C4 as stated: with an empty player hand but a set
dealer up-card, `get_recommendation` does not fail at all — it succeeds and
returns the default Hit action (there is no `PreconditionError` anywhere in
the code; the caller in blackjack_assistant.py checks the state instead). -/
theorem c4_empty_hand_counterexample :
    ((Game.new 1).set_dealer_upcard ("5H")).2.player_hand = ([] : List Card) ∧
    (BasicStrategy.get_recommendation ((Game.new 1).set_dealer_upcard ("5H")).2).isOk = true ∧
    (BasicStrategy.get_recommendation ((Game.new 1).set_dealer_upcard ("5H")).2).toOption.map
      (fun r => r.action) = some ("H") := by
  decide

/-- Claim C4 as amended: a recommendation request fails — with the
`AttributeError` of reading `.value` on `None`, not a `PreconditionError` —
exactly when the dealer up-card is unset, for all three engines; with the
up-card set every engine succeeds even on an empty player hand. -/
theorem c4_failure_modes_amended (g : Game) :
    (g.dealer_upcard = none →
      BasicStrategy.get_recommendation g = .error .attributeError ∧
      CountingStrategy.get_recommendation g = .error .attributeError ∧
      EnhancedStrategy.get_recommendation g = .error .attributeError) ∧
    (∀ d : Card, g.dealer_upcard = some d → g.wf = true →
      (BasicStrategy.get_recommendation g).isOk = true ∧
      (CountingStrategy.get_recommendation g).isOk = true ∧
      (EnhancedStrategy.get_recommendation g).isOk = true) := by
  constructor
  · intro hd
    exact ⟨basic_error_of_none g hd, counting_error_of_none g hd,
      enhanced_error_of_none g hd⟩
  · intro d hd _hw
    exact ⟨basic_isOk_of_some g d hd, counting_isOk_of_some g d hd,
      enhanced_isOk_of_some g d hd⟩

/-- Witness for C4 (amended) at concrete inputs: a fresh game (no up-card)
makes the basic engine fail with the attribute error, and the same game with
dealer 5♥ set makes all three engines succeed. -/
theorem c4_failure_modes_amended_witness :
    BasicStrategy.get_recommendation (Game.new 1) = .error .attributeError ∧
    (CountingStrategy.get_recommendation ((Game.new 1).set_dealer_upcard ("5H")).2).isOk
      = true := by
  refine ⟨((c4_failure_modes_amended (Game.new 1)).1 (by decide)).1, ?_⟩
  exact ((c4_failure_modes_amended ((Game.new 1).set_dealer_upcard ("5H")).2).2
    (parseD ("5H")) (by decide) (by decide)).2.1

/-- Claim C6: the true count equals the running count divided by
decksRemaining = (deckCount × 52 − cardsDealtSoFar) / 52 with cardsDealtSoFar
= |observedCards| + |playerHand| + (1 if the dealer up-card is set), and is 0
whenever decksRemaining ≤ 0. -/
theorem c6_true_count_formula (g : Game) : g.get_true_count = trueCountSpec g := by
  unfold Game.get_true_count trueCountSpec
  simp only [pyDiv_eq_div]
  norm_num

/-- Claim C7: setting the dealer up-card twice with valid tokens leaves the
single up-card slot holding the second card while the running count keeps the
Hi-Lo contributions of both cards — the replaced card is not un-counted. -/
theorem c7_upcard_replaced_count_not_reversed (g : Game) (t1 t2 : String)
    (h1 : matchesCardFormat t1 = true) (h2 : matchesCardFormat t2 = true) :
    ((g.set_dealer_upcard t1).2.set_dealer_upcard t2).2.dealer_upcard = some (parseD t2) ∧
    ((g.set_dealer_upcard t1).2.set_dealer_upcard t2).2.card_count =
      g.card_count + hiLoTok t1 + hiLoTok t2 := by
  have hp1 := parse_ok_of_format t1 h1
  have hp2 := parse_ok_of_format t2 h2
  constructor
  · simp [Game.set_dealer_upcard, hp1, hp2, update_card_count_spec]
  · simp [Game.set_dealer_upcard, hp1, hp2, update_card_count_spec, hiLoTok, add_assoc]

/-- Witness for C7 at concrete tokens: K♥ then A♠ on a fresh game leave the
up-card at A♠ and the count at −2. -/
theorem c7_upcard_replaced_count_not_reversed_witness :
    (((Game.new 1).set_dealer_upcard ("KH")).2.set_dealer_upcard ("AS")).2.dealer_upcard
      = some (parseD ("AS")) ∧
    (((Game.new 1).set_dealer_upcard ("KH")).2.set_dealer_upcard ("AS")).2.card_count
      = 0 + hiLoTok ("KH") + hiLoTok ("AS") := by
  exact c7_upcard_replaced_count_not_reversed (Game.new 1) ("KH") ("AS")
    (by decide) (by decide)

/-- Counterexample to claim C9 as stated: the token `"2C\n"` does not match
the bit-exact format `^([2-9]|10|[JQKA])([CDHS])$`, yet `add_dealt_card`
succeeds on it and mutates the state — Python's `$` also matches just before
a single trailing newline, so `re.match` at game.py line 20 accepts the
token and `Card.__init__` extracts rank `2` and suit `C`. -/
theorem c9_trailing_newline_counterexample :
    matchesCardFormatExact ("2C\n") = false ∧
    ((Game.new 1).add_dealt_card ("2C\n")).1.isOk = true ∧
    ((Game.new 1).add_dealt_card ("2C\n")).2.dealt_cards = [mkCard ("2") 'C'] ∧
    ((Game.new 1).add_dealt_card ("2C\n")).2.card_count = 1 ∧
    (Card.parse ("2C\n")).toOption = (Card.parse ("2C")).toOption := by
  decide

/-- Claim C9 as amended: every token rejected by the validation as Python's
`re.match` actually applies it — the anchored regex with optionally one
trailing newline (`matchesCardFormat`) — makes each of the three mutating
calls fail with the parse error and leave every field of the game state
exactly as it was; a format-matching token with the trailing newline is
instead accepted, and parsed as if the newline were absent. -/
theorem c9_python_rejected_token_no_mutation (g : Game) (tok : String)
    (h : matchesCardFormat tok = false) :
    g.add_dealt_card tok = (.error .valueError, g) ∧
    g.add_to_player_hand tok = (.error .valueError, g) ∧
    g.set_dealer_upcard tok = (.error .valueError, g) := by
  have hp := parse_error_of_not_format tok h
  refine ⟨?_, ?_, ?_⟩ <;>
    simp [Game.add_dealt_card, Game.add_to_player_hand, Game.set_dealer_upcard, hp]

/-- Witness for C9 (amended) at the concrete malformed token `XX`, which not
even Python's trailing-newline-tolerant matching accepts. -/
theorem c9_python_rejected_token_no_mutation_witness :
    matchesCardFormat ("XX") = false ∧
    (Game.new 1).add_dealt_card ("XX") = (.error .valueError, Game.new 1) := by
  refine ⟨by decide, ?_⟩
  exact (c9_python_rejected_token_no_mutation (Game.new 1) ("XX") (by decide)).1

/-- Claim C5: for a two-card non-pair hand totalling a hard 16 with the
dealer up-card set, the basic engine recommends Stand for every dealer value
2-10 and Hit against a dealer Ace (value 11). -/
theorem c5_hard_sixteen_recommendation (g : Game) (c1 c2 d : Card)
    (hh : g.player_hand = [c1, c2]) (hr : c1.rank ≠ c2.rank)
    (ht : g.get_player_hand_value.1 = 16)
    (hd : g.dealer_upcard = some d) (hdv : 2 ≤ d.value ∧ d.value ≤ 11) :
    ∃ r, BasicStrategy.get_recommendation g = .ok r ∧
      r.action = (if d.value = 11 then "H" else "S") := by
  have hsoft : g.get_player_hand_value.2.2 = false := by
    cases hcase : g.get_player_hand_value.2.2
    · rfl
    · have := soft_total_le g hcase
      rw [ht] at this
      omega
  have hcs : g.can_split = false := by
    simp [Game.can_split, hh, hr]
  have hres : basic_resolve g g.get_player_hand_value.1 g.get_player_hand_value.2.2 d.value
      = (if d.value = 11 then "H" else "S") := by
    rw [ht, hsoft]
    by_cases h11 : d.value = 11
    · simp [basic_resolve, hcs, hard_hands_lookup, h11]
    · simp [basic_resolve, hcs, hard_hands_lookup, h11, hdv.1, hdv.2]
  unfold BasicStrategy.get_recommendation
  rw [hd]
  exact ⟨_, rfl, hres⟩

/-- Witness for C5 at the claim's concrete example: one deck, player hand
10♣ 6♦, dealer up-card 10♠ — the recommended action is Stand. -/
theorem c5_hard_sixteen_recommendation_witness :
    ∃ r, BasicStrategy.get_recommendation c5Game = .ok r ∧ r.action = "S" := by
  obtain ⟨r, h1, h2⟩ := c5_hard_sixteen_recommendation c5Game (parseD ("10C")) (parseD ("6D"))
    (parseD ("10S")) (by decide) (by decide) (by decide) (by decide) (by decide)
  refine ⟨r, h1, ?_⟩
  rw [h2]
  decide

theorem get_remaining_cards_run_spec (g : Game) :
    g.get_remaining_cards_run = (g.get_remaining_cards, g) := by
  unfold Game.get_remaining_cards_run Game.get_remaining_cards
  cases hd : g.dealer_upcard <;> simp

theorem bust_run_spec (g : Game) :
    g.calculate_probability_of_bust_run = (g.calculate_probability_of_bust, g) := by
  unfold Game.calculate_probability_of_bust_run Game.calculate_probability_of_bust
  rw [get_remaining_cards_run_spec]
  by_cases h1 : 21 ≤ g.get_player_hand_value.1
  · simp [h1]
  · by_cases h2 : (List.map Prod.snd g.get_remaining_cards).sum = (0 : Int) <;> simp [h1, h2]

theorem basic_run_spec (g : Game) :
    BasicStrategy.get_recommendation_run g = (BasicStrategy.get_recommendation g, g) := by
  unfold BasicStrategy.get_recommendation_run BasicStrategy.get_recommendation
  cases hd : g.dealer_upcard
  · rfl
  · rw [bust_run_spec]

/-- Claim C10: on a valid state (non-empty hand, dealer up-card set), one
`get_recommendation` call — with the state threaded through every sub-call it
makes on the game object — leaves every field of the state unchanged, a
second call returns the identical result, and the value agrees with the pure
reading of the method: recommend is a pure function of the state snapshot. -/
theorem c10_recommend_pure_idempotent (g : Game) (d : Card)
    (hd : g.dealer_upcard = some d) (hh : g.player_hand ≠ []) (hw : g.wf = true) :
    (BasicStrategy.get_recommendation_run g).2 = g ∧
    BasicStrategy.get_recommendation_run ((BasicStrategy.get_recommendation_run g).2) =
      BasicStrategy.get_recommendation_run g ∧
    (BasicStrategy.get_recommendation_run g).1 = BasicStrategy.get_recommendation g := by
  rw [basic_run_spec]
  exact ⟨rfl, by rw [basic_run_spec], rfl⟩

/-- Witness for C10 at the concrete game `c5Game` (hand 10♣ 6♦, dealer 10♠):
the call leaves the state unchanged. -/
theorem c10_recommend_pure_idempotent_witness :
    (BasicStrategy.get_recommendation_run c5Game).2 = c5Game ∧
    BasicStrategy.get_recommendation_run ((BasicStrategy.get_recommendation_run c5Game).2) =
      BasicStrategy.get_recommendation_run c5Game := by
  have h := c10_recommend_pure_idempotent c5Game (parseD ("10S"))
    (by decide) (by decide) (by decide)
  exact ⟨h.1, h.2.1⟩

theorem soft_hands_lookup_none_of_le (total dv : Nat) (h : total ≤ 11) :
    soft_hands_lookup total dv = none := by
  unfold soft_hands_lookup
  split_ifs <;> first | rfl | omega

theorem basic_expl_not_soft (g : Game) (r : Recommendation)
    (h : BasicStrategy.get_recommendation g = .ok r) :
    isSoftDevExpl r.explanation = false := by
  unfold BasicStrategy.get_recommendation at h
  cases hd : g.dealer_upcard <;> rw [hd] at h
  · exact absurd h (by simp)
  · simp only [Except.ok.injEq] at h
    rw [← h]
    split_ifs <;> rfl

theorem enhanced_rec_eq (g : Game) (d : Card) (br : Recommendation)
    (hd : g.dealer_upcard = some d) (hb : BasicStrategy.get_recommendation g = .ok br) :
    EnhancedStrategy.get_recommendation g =
      .ok { action := (enhancedDevChain g br.action br.explanation).1
            explanation := (enhancedDevChain g br.action br.explanation).2.1
            subsequent_advice := br.subsequent_advice
            deviation_note := (enhancedDevChain g br.action br.explanation).2.2
            bust_probability := g.calculate_probability_of_bust
            running_count := g.get_running_count
            true_count := g.get_true_count
            counting_info_more_high := decide (g.get_true_count > 0) } := by
  unfold EnhancedStrategy.get_recommendation
  rw [hb, hd]
  rfl

set_option maxHeartbeats 1000000 in
theorem enhancedDevChain_no_soft_deviation (g : Game) (a : String) (e : Explanation)
    (he : isSoftDevExpl e = false) :
    isSoftDevExpl (enhancedDevChain g a e).2.1 = false := by
  have hsle : g.get_player_hand_value.2.2 = true → g.get_player_hand_value.1 ≤ 11 :=
    soft_total_le g
  unfold isSoftDevExpl at he
  unfold enhancedDevChain
  generalize hTC : g.get_true_count = tcv
  generalize hT : g.get_player_hand_value.1 = tot at hsle ⊢
  generalize hS : g.get_player_hand_value.2.2 = sft at hsle ⊢
  generalize hDV : dealerValueD g = dv
  generalize hDR : dealerRankD g = dr
  generalize hCD : g.can_double_down = cd
  generalize hCS : g.can_split = cs
  generalize hR0 : (g.player_hand.getD 0 default).rank = r0
  generalize hR1 : (g.player_hand.getD 1 default).rank = r1
  generalize hL : g.player_hand.length = len
  clear hTC hT hS hDV hDR hCD hCS hR0 hR1 hL
  clear g
  simp only [apply_ite (fun p : String × Explanation × Bool => isSoftDevExpl p.2.1)]
  cases sft with
  | false => simp [isSoftDevExpl, he, ite_self]
  | true =>
      have hle := hsle rfl
      have h18 : tot ≠ 18 := by omega
      have h17 : tot ≠ 17 := by omega
      have h16 : tot ≠ 16 := by omega
      simp [isSoftDevExpl, he, h18, h17, h16, ite_self]

/-- Claim C2: (1) whenever `get_player_hand_value` reports a soft hand the
adjusted total is at most 11; (2) hence the soft-table guard of
`BasicStrategy.get_recommendation` (keys 13-20) never holds; (3) every
non-pair hand is resolved through the hard-total table with its
double-downgrade, defaulting to Hit; (4) the soft-hand deviation branch of
`EnhancedStrategy` (soft 18 vs 9, soft 17 vs 2, soft 16 vs 4) never produces
its explanation — no such deviation ever fires. -/
theorem c2_soft_branches_unreachable :
    (∀ g : Game, g.get_player_hand_value.2.2 = true → g.get_player_hand_value.1 ≤ 11) ∧
    (∀ g : Game, ∀ dv : Nat,
      ¬(g.get_player_hand_value.2.2 = true ∧
        (soft_hands_lookup g.get_player_hand_value.1 dv).isSome = true)) ∧
    (∀ g : Game, ∀ d : Card, ∀ r : Recommendation,
      g.dealer_upcard = some d → g.can_split = false →
      BasicStrategy.get_recommendation g = .ok r →
      r.action =
        (match hard_hands_lookup g.get_player_hand_value.1 d.value with
         | some a => if a = "D" ∧ g.can_double_down = false then "H" else a
         | none => "H")) ∧
    (∀ g : Game, ∀ r : CountingRecommendation,
      EnhancedStrategy.get_recommendation g = .ok r →
      isSoftDevExpl r.explanation = false) := by
  refine ⟨fun g => soft_total_le g, ?_, ?_, ?_⟩
  · rintro g dv ⟨hs, hl⟩
    rw [soft_hands_lookup_none_of_le _ dv (soft_total_le g hs)] at hl
    simp at hl
  · intro g d r hd hcs hr
    unfold BasicStrategy.get_recommendation at hr
    rw [hd] at hr
    simp only [Except.ok.injEq] at hr
    rw [← hr]
    show basic_resolve g g.get_player_hand_value.1 g.get_player_hand_value.2.2 d.value = _
    by_cases hsoft : g.get_player_hand_value.2.2 = true
    · have hle := soft_total_le g hsoft
      simp [basic_resolve, hcs, hsoft, soft_hands_lookup_none_of_le _ d.value hle]
    · simp [basic_resolve, hcs, hsoft]
  · intro g r hrec
    cases hd : g.dealer_upcard
    · rw [enhanced_error_of_none g hd] at hrec
      exact absurd hrec (by simp)
    · rename_i d
      have hb := basicRecOf_ok g d hd
      have heq := enhanced_rec_eq g d _ hd hb
      rw [heq] at hrec
      simp only [Except.ok.injEq] at hrec
      rw [← hrec]
      exact enhancedDevChain_no_soft_deviation g _ _ (basic_expl_not_soft g _ hb)

/-- Witness for C2 at the concrete game with player hand A♠ (the lone-ace
hand, the only shape flagged soft) and dealer 9♥. -/
theorem c2_soft_branches_unreachable_witness :
    c2SoftGame.get_player_hand_value.1 ≤ 11 ∧
    isSoftDevExpl c2EnhRec.explanation = false := by
  refine ⟨c2_soft_branches_unreachable.1 c2SoftGame (by decide), ?_⟩
  exact c2_soft_branches_unreachable.2.2.2 c2SoftGame c2EnhRec (by rfl)

set_option maxHeartbeats 2000000 in
theorem countingDevChain_eq_firstMatch (g : Game) (a : String) (e : Explanation) :
    countingDevChain g a e = firstMatch countingRules g a e := by
  unfold countingDevChain countingRules
  simp only [firstMatch, DevRule.guard, DevRule.action, DevRule.expl, decide_eq_true_eq]
  generalize g.get_true_count = tcv
  generalize g.get_player_hand_value.1 = tot
  generalize g.get_player_hand_value.2.2 = sft
  generalize dealerValueD g = dv
  generalize dealerRankD g = dr
  generalize g.can_double_down = cd
  generalize g.can_split = cs
  generalize (g.player_hand.getD 0 default).rank = r0
  generalize (g.player_hand.getD 1 default).rank = r1
  generalize g.player_hand.length = len
  refine if_congr Iff.rfl rfl ?_
  refine if_congr Iff.rfl rfl ?_
  refine if_congr Iff.rfl rfl ?_
  refine if_congr Iff.rfl rfl ?_
  refine if_congr Iff.rfl rfl ?_
  refine if_congr Iff.rfl rfl ?_
  refine if_congr Iff.rfl rfl ?_
  refine if_congr Iff.rfl rfl ?_
  split_ifs <;> first | rfl | tauto

theorem counting_rec_eq (g : Game) (d : Card) (br : Recommendation)
    (hd : g.dealer_upcard = some d) (hb : BasicStrategy.get_recommendation g = .ok br) :
    CountingStrategy.get_recommendation g =
      .ok { action := (countingDevChain g br.action br.explanation).1
            explanation :=
              (if (countingDevChain g br.action br.explanation).2.2 = false
               then Explanation.followBasic g.get_true_count
               else (countingDevChain g br.action br.explanation).2.1)
            subsequent_advice := br.subsequent_advice
            deviation_note := (countingDevChain g br.action br.explanation).2.2
            bust_probability := g.calculate_probability_of_bust
            running_count := g.get_running_count
            true_count := g.get_true_count
            counting_info_more_high := decide (g.get_true_count > 0) } := by
  unfold CountingStrategy.get_recommendation
  rw [hb, hd]
  rfl

theorem firstMatch_of_no_guard (rules : List DevRule) (g : Game) (a : String) (e : Explanation)
    (h : ∀ r ∈ rules, r.guard g = false) :
    firstMatch rules g a e = (a, e, false) := by
  induction rules with
  | nil => rfl
  | cons r rs ih =>
      unfold firstMatch
      rw [h r (List.mem_cons_self r rs)]
      simp only [Bool.false_eq_true, if_false]
      exact ih (fun r' hr' => h r' (List.mem_cons_of_mem r hr'))

theorem firstMatch_insurance (g : Game) (a : String) (e : Explanation)
    (h1 : dealerRankD g = "A") (h2 : 3 ≤ g.get_true_count) :
    firstMatch countingRules g a e = (a, .insurance g.get_true_count, true) := by
  unfold countingRules firstMatch
  rw [if_pos]
  exact decide_eq_true ⟨h1, h2⟩

/-- Claim C8: on a valid state, the counting engine's action, explanation
and deviation flag are exactly the result of first-match-wins evaluation of
the ordered deviation-rule list insurance → 16-vs-10 → 15-vs-10 → 10-vs-Ace →
12-vs-3 → 12-vs-2 → 11-vs-Ace → 9-vs-2 → pair-10-vs-5/6 (`countingRules`),
started from the basic recommendation, with the follow-basic-strategy
explanation substituted when no rule fires; in particular with a dealer Ace
and true count ≥ 3 the action is identical to the basic engine's while the
explanation becomes the insurance advice, and with no matching rule the basic
action stands with the follow-basic explanation. -/
theorem c8_counting_deviation_order (g : Game) (d : Card) (br : Recommendation)
    (cr : CountingRecommendation) (hd : g.dealer_upcard = some d)
    (hb : BasicStrategy.get_recommendation g = .ok br)
    (hc : CountingStrategy.get_recommendation g = .ok cr) :
    (cr.action = (firstMatch countingRules g br.action br.explanation).1 ∧
     cr.deviation_note = (firstMatch countingRules g br.action br.explanation).2.2 ∧
     cr.explanation =
       (if (firstMatch countingRules g br.action br.explanation).2.2 = false
        then Explanation.followBasic g.get_true_count
        else (firstMatch countingRules g br.action br.explanation).2.1)) ∧
    (dealerRankD g = "A" → 3 ≤ g.get_true_count →
      cr.action = br.action ∧ cr.explanation = .insurance g.get_true_count) ∧
    ((∀ rule ∈ countingRules, rule.guard g = false) →
      cr.action = br.action ∧ cr.explanation = .followBasic g.get_true_count) := by
  have hrec := counting_rec_eq g d br hd hb
  rw [hrec] at hc
  simp only [Except.ok.injEq] at hc
  rw [← hc]
  simp only [countingDevChain_eq_firstMatch]
  refine ⟨⟨by first | rfl | trivial, by first | rfl | trivial,
    by first | rfl | trivial⟩, ?_, ?_⟩
  · intro h1 h2
    rw [firstMatch_insurance g br.action br.explanation h1 h2]
    refine ⟨by simp, by simp⟩
  · intro h
    rw [firstMatch_of_no_guard countingRules g br.action br.explanation h]
    refine ⟨by simp, by simp⟩

/-- Witness for C8 at the concrete game `c8Game` (five low cards dealt, hand
10♣ 6♦, dealer A♠, true count 52/11 ≥ 3): the counting engine keeps the basic
action and emits the insurance-consideration explanation. -/
theorem c8_counting_deviation_order_witness :
    dealerRankD c8Game = "A" ∧ 3 ≤ c8Game.get_true_count ∧
    c8CountingRec.action = c8BasicRec.action ∧
    c8CountingRec.explanation = .insurance c8Game.get_true_count := by
  have h := (c8_counting_deviation_order c8Game (parseD ("AS")) c8BasicRec c8CountingRec
    (by decide) (by rfl) (by rfl)).2.1 (by decide) (by decide)
  exact ⟨by decide, by decide, h.1, h.2⟩
